import Mathlib

/-!
Shallow embedding of the Chasm session-management and request-execution
core (React/viem frontend).  Each definition is translated from the
TypeScript source: the snapshot stack (`addSnapshot`, `updateSnapshot`,
`revertSnapshot`, `stopLocalFork`, `ensureLocalClients` in the main app
component), the dual-authoring request pipeline (`generateRawJson`,
`handleViewSwitch`), the snapshot/dispatch ordering of `handleExecute` /
`handleSendEth`, and the trace resolver (`fetchTrace`).  React state
setters become explicit state-record updates; `await`ed external calls
(fetch, viem client requests) become explicit outcome parameters, since
their results are decided outside this code.
-/

namespace Chasm

/-- Status of a recorded snapshot entry (source: `status: 'pending' | 'confirmed' | 'error'`). -/
inductive SnapStatus
  | pending
  | confirmed
  | error
deriving DecidableEq, Repr

/-- One entry of the snapshot stack.  Mirrors the `SnapshotEntry` shape used by
`addSnapshot`: a locally generated `id`, the external checkpoint handle
`snapshotId`, `createdAt` (`Date.now()` at record time), a status, and the
descriptive fields (`method`, `from`, `to`, `value`). -/
structure SnapshotEntry where
  id : String
  snapshotId : String
  createdAt : Nat
  status : SnapStatus
  method : String
  «from» : Option String := none
  «to» : Option String := none
  value : Option String := none
deriving DecidableEq, Repr

/-- The caller-supplied part of an `addSnapshot` entry
(`{ snapshotId, method, from?, to?, value? }`). -/
structure SnapshotInfo where
  snapshotId : String
  method : String
  «from» : Option String := none
  «to» : Option String := none
  value : Option String := none
deriving DecidableEq, Repr

/-- The snapshot-stack slice of the app state: the `snapshots` React state
(stored newest-first, since `addSnapshot` prepends) and `activeSnapshotId`
(the spec's `headId`). -/
structure SnapshotState where
  snapshots : List SnapshotEntry
  activeSnapshotId : Option String
deriving DecidableEq, Repr

/-- The entry `addSnapshot` builds:
`{ id: ⟨snap-now-rand⟩, createdAt: Date.now(), status: 'pending', ...entry }`.
`now` stands for the `Date.now()` reading and `rand` for the random suffix. -/
def mkSnapshotEntry (now : Nat) (rand : String) (entry : SnapshotInfo) : SnapshotEntry :=
  { id := "snap-" ++ toString now ++ "-" ++ rand
    snapshotId := entry.snapshotId
    createdAt := now
    status := SnapStatus.pending
    method := entry.method
    «from» := entry.«from»
    «to» := entry.«to»
    value := entry.value }

/-- Source `addSnapshot`: prepends the new entry (`setSnapshots(prev => [next, ...prev])`),
sets `activeSnapshotId` to the entry's external id, and returns the local id. -/
def addSnapshot (now : Nat) (rand : String) (entry : SnapshotInfo) (s : SnapshotState) :
    String × SnapshotState :=
  let next := mkSnapshotEntry now rand entry
  (next.id,
   { snapshots := next :: s.snapshots
     activeSnapshotId := some entry.snapshotId })

/-- Source `updateSnapshot`: `setSnapshots(prev => prev.map(s => s.id === id ? {...s, ...patch} : s))`,
with the patch restricted to the fields the callers pass (status, txHash, blockNumber);
only `status` is carried in this embedding. -/
def updateSnapshot (localId : String) (status : SnapStatus) (s : SnapshotState) : SnapshotState :=
  { s with
    snapshots := s.snapshots.map fun e =>
      if e.id = localId then { e with status := status } else e }

/-- Outcome of the awaited external calls inside `revertSnapshot`
(`ensureLocalClients()` then `testClient.revert({ id })`): either both resolve,
or one of them rejects and control jumps to the `catch` block. -/
inductive RevertOutcome
  | ok
  | err
deriving DecidableEq, Repr

/-- The toast `revertSnapshot` raises (`setSnapshotToast`). -/
structure Toast where
  message : String
  status : String
deriving DecidableEq, Repr

/-- Source `revertSnapshot(snapshotId)`:
on resolved external revert it runs `setActiveSnapshotId(snapshotId)` and then
`setSnapshots(prev => ...)` where the updater looks up
`prev.find(s => s.snapshotId === snapshotId)` and, if found, keeps
`prev.filter(s => s.createdAt <= target.createdAt)` (otherwise returns `prev`
unchanged), finishing with a success toast; on a rejected external call the
`catch` block only raises an error toast and no state setter runs. -/
def revertSnapshot (outcome : RevertOutcome) (snapshotId : String) (s : SnapshotState) :
    SnapshotState × Toast :=
  match outcome with
  | RevertOutcome.err =>
      (s, { message := "Revert failed", status := "error" })
  | RevertOutcome.ok =>
      let s1 : SnapshotState := { s with activeSnapshotId := some snapshotId }
      let snaps :=
        match s1.snapshots.find? (fun e => e.snapshotId == snapshotId) with
        | none => s1.snapshots
        | some target => s1.snapshots.filter (fun e => decide (e.createdAt ≤ target.createdAt))
      ({ s1 with snapshots := snaps },
       { message := "Reverted to snapshot", status := "success" })

/-- A sequence of `addSnapshot` calls (each with its `Date.now()` reading,
random suffix and entry), folded over the state; models recording with no
intervening revert. -/
def recordAll (calls : List (Nat × String × SnapshotInfo)) (s : SnapshotState) : SnapshotState :=
  calls.foldl (fun st c => (addSnapshot c.1 c.2.1 c.2.2 st).2) s

/-- The entry a single recorded call produces. -/
def entryOfCall (c : Nat × String × SnapshotInfo) : SnapshotEntry :=
  mkSnapshotEntry c.1 c.2.1 c.2.2

/-- The empty snapshot state a session starts from. -/
def emptySnapshotState : SnapshotState := { snapshots := [], activeSnapshotId := none }

theorem recordAll_snapshots (calls : List (Nat × String × SnapshotInfo)) (s : SnapshotState) :
    (recordAll calls s).snapshots = (calls.map entryOfCall).reverse ++ s.snapshots := by
  induction calls generalizing s with
  | nil => simp [recordAll]
  | cons c cs ih =>
      show (recordAll cs ((addSnapshot c.1 c.2.1 c.2.2 s).2)).snapshots = _
      rw [ih]
      simp [addSnapshot, entryOfCall, List.append_assoc]

theorem recordAll_active (calls : List (Nat × String × SnapshotInfo)) (s : SnapshotState) :
    (recordAll calls s).activeSnapshotId =
      match calls.getLast? with
      | some c => some c.2.2.snapshotId
      | none => s.activeSnapshotId := by
  induction calls generalizing s with
  | nil => simp [recordAll]
  | cons c cs ih =>
      cases cs with
      | nil => simp [recordAll, addSnapshot]
      | cons d ds =>
          have h := ih ((addSnapshot c.1 c.2.1 c.2.2 s).2)
          show (recordAll (d :: ds) ((addSnapshot c.1 c.2.1 c.2.2 s).2)).activeSnapshotId = _
          rw [h, List.getLast?_cons_cons]
          cases hl : (d :: ds).getLast? with
          | none => simp at hl
          | some c2 => rfl

/-- C1: With the external restore resolved and the target external id present in
the stack, `revertSnapshot` keeps exactly the entries whose `createdAt` is at
most the target's (removing exactly those strictly newer), retains the target
itself, and sets the head pointer to the target's external id. -/
theorem C1_revertTo_truncates (s : SnapshotState) (sid : String) (target : SnapshotEntry)
    (hfind : s.snapshots.find? (fun e => e.snapshotId == sid) = some target) :
    (revertSnapshot RevertOutcome.ok sid s).1.snapshots =
        s.snapshots.filter (fun e => decide (e.createdAt ≤ target.createdAt)) ∧
      (revertSnapshot RevertOutcome.ok sid s).1.activeSnapshotId = some sid ∧
      target ∈ (revertSnapshot RevertOutcome.ok sid s).1.snapshots := by
  have hmem : target ∈ s.snapshots := List.mem_of_find?_eq_some hfind
  refine ⟨?_, ?_, ?_⟩
  · simp [revertSnapshot, hfind]
  · simp [revertSnapshot, hfind]
  · simp only [revertSnapshot, hfind]
    exact List.mem_filter.2 ⟨hmem, by simp⟩

theorem recordAll_createdAt (calls : List (Nat × String × SnapshotInfo)) :
    ((recordAll calls emptySnapshotState).snapshots.reverse).map (fun e => e.createdAt) =
      calls.map (fun c => c.1) := by
  have h := recordAll_snapshots calls emptySnapshotState
  rw [show emptySnapshotState.snapshots = [] from rfl, List.append_nil] at h
  rw [h, List.reverse_reverse, List.map_map]
  rfl

/-- Sample entry A (oldest) used to instantiate the snapshot-stack theorems. -/
def entryA : SnapshotEntry :=
  { id := "snap-1-r1", snapshotId := "0x1", createdAt := 1
    status := SnapStatus.pending, method := "transfer" }

/-- Sample entry B (middle). -/
def entryB : SnapshotEntry :=
  { id := "snap-2-r2", snapshotId := "0x2", createdAt := 2
    status := SnapStatus.pending, method := "approve" }

/-- Sample entry C (newest). -/
def entryC : SnapshotEntry :=
  { id := "snap-3-r3", snapshotId := "0x3", createdAt := 3
    status := SnapStatus.pending, method := "mint" }

/-- Stack holding A, B, C (stored newest-first, as `addSnapshot` prepends). -/
def stackABC : SnapshotState :=
  { snapshots := [entryC, entryB, entryA], activeSnapshotId := some "0x3" }

/-- Stack holding only A. -/
def stackA : SnapshotState :=
  { snapshots := [entryA], activeSnapshotId := some "0x1" }

theorem C1_revertTo_truncates_witness :
    stackABC.snapshots.find? (fun e => e.snapshotId == "0x2") = some entryB ∧
    ((revertSnapshot RevertOutcome.ok "0x2" stackABC).1.snapshots =
        stackABC.snapshots.filter (fun e => decide (e.createdAt ≤ entryB.createdAt)) ∧
      (revertSnapshot RevertOutcome.ok "0x2" stackABC).1.activeSnapshotId = some "0x2" ∧
      entryB ∈ (revertSnapshot RevertOutcome.ok "0x2" stackABC).1.snapshots) ∧
    (revertSnapshot RevertOutcome.ok "0x2" stackABC).1.snapshots = [entryB, entryA] :=
  ⟨by decide, C1_revertTo_truncates stackABC "0x2" entryB (by decide), by decide⟩

/-- C2 counterexample: with the external restore resolving, `revertSnapshot` on an
id absent from the stack does not fail; it reports success and moves
`activeSnapshotId` to the unknown id, so the stack's head is not left unchanged. -/
theorem C2_revert_unknown_id_counterexample :
    stackA.snapshots.find? (fun e => e.snapshotId == "0xdead") = none ∧
    (revertSnapshot RevertOutcome.ok "0xdead" stackA).1.activeSnapshotId = some "0xdead" ∧
    (revertSnapshot RevertOutcome.ok "0xdead" stackA).1.activeSnapshotId ≠
      stackA.activeSnapshotId ∧
    (revertSnapshot RevertOutcome.ok "0xdead" stackA).2.status = "success" := by
  decide

/-- C2 (amended): for an external id absent from the stack the entries list is
never changed; when the external restore rejects, the whole state is unchanged
and an error toast is raised; when it resolves, no error is raised (success
toast) and `activeSnapshotId` is set to the unknown id. -/
theorem C2_revert_unknown_id_amended (s : SnapshotState) (sid : String)
    (outcome : RevertOutcome)
    (hfind : s.snapshots.find? (fun e => e.snapshotId == sid) = none) :
    (revertSnapshot outcome sid s).1.snapshots = s.snapshots ∧
    (outcome = RevertOutcome.err →
      (revertSnapshot outcome sid s).1 = s ∧
      (revertSnapshot outcome sid s).2.status = "error") ∧
    (outcome = RevertOutcome.ok →
      (revertSnapshot outcome sid s).1.activeSnapshotId = some sid ∧
      (revertSnapshot outcome sid s).2.status = "success") := by
  cases outcome <;> simp [revertSnapshot, hfind]

theorem C2_revert_unknown_id_amended_witness :
    stackA.snapshots.find? (fun e => e.snapshotId == "0xdead") = none ∧
    ((revertSnapshot RevertOutcome.ok "0xdead" stackA).1.snapshots = stackA.snapshots ∧
    (RevertOutcome.ok = RevertOutcome.err →
      (revertSnapshot RevertOutcome.ok "0xdead" stackA).1 = stackA ∧
      (revertSnapshot RevertOutcome.ok "0xdead" stackA).2.status = "error") ∧
    (RevertOutcome.ok = RevertOutcome.ok →
      (revertSnapshot RevertOutcome.ok "0xdead" stackA).1.activeSnapshotId = some "0xdead" ∧
      (revertSnapshot RevertOutcome.ok "0xdead" stackA).2.status = "success")) :=
  ⟨by decide, C2_revert_unknown_id_amended stackA "0xdead" RevertOutcome.ok (by decide)⟩

/-- Two record calls whose `Date.now()` readings tie (same millisecond). -/
def callsEqualStamp : List (Nat × String × SnapshotInfo) :=
  [(100, "r1", { snapshotId := "0xa", method := "mint" }),
   (100, "r2", { snapshotId := "0xb", method := "burn" })]

/-- C3 counterexample: `createdAt` comes from `Date.now()`, which can return the
same millisecond for two consecutive `record` calls; the resulting stack is then
not strictly increasing in `createdAt` (headId still tracks the last entry). -/
theorem C3_strict_increase_counterexample :
    List.Pairwise (· ≤ ·) (callsEqualStamp.map (fun c => c.1)) ∧
    ¬ List.Pairwise (· < ·)
        (((recordAll callsEqualStamp emptySnapshotState).snapshots.reverse).map
          (fun e => e.createdAt)) ∧
    (recordAll callsEqualStamp emptySnapshotState).activeSnapshotId = some "0xb" := by
  decide

/-- C3 (amended): for any sequence of `record` calls from the empty stack whose
clock readings are nondecreasing, the stack ordered oldest-to-newest is
nondecreasing in `createdAt` (strictly increasing whenever the clock readings
are strictly increasing), and `activeSnapshotId` equals the external snapshot id
of the last recorded entry. -/
theorem C3_record_sequence_amended (calls : List (Nat × String × SnapshotInfo))
    (hmono : List.Pairwise (· ≤ ·) (calls.map (fun c => c.1))) :
    List.Pairwise (· ≤ ·)
        (((recordAll calls emptySnapshotState).snapshots.reverse).map (fun e => e.createdAt)) ∧
    (List.Pairwise (· < ·) (calls.map (fun c => c.1)) →
      List.Pairwise (· < ·)
        (((recordAll calls emptySnapshotState).snapshots.reverse).map (fun e => e.createdAt))) ∧
    (recordAll calls emptySnapshotState).activeSnapshotId =
      (calls.getLast?).map (fun c => c.2.2.snapshotId) := by
  refine ⟨?_, ?_, ?_⟩
  · rw [recordAll_createdAt]
    exact hmono
  · intro h
    rw [recordAll_createdAt]
    exact h
  · rw [recordAll_active]
    cases calls.getLast? <;> simp [emptySnapshotState]

/-- Two record calls with strictly increasing clock readings. -/
def callsStrict : List (Nat × String × SnapshotInfo) :=
  [(1, "r1", { snapshotId := "0x1", method := "transfer" }),
   (2, "r2", { snapshotId := "0x2", method := "approve" })]

theorem C3_record_sequence_amended_witness :
    List.Pairwise (· ≤ ·) (callsStrict.map (fun c => c.1)) ∧
    (List.Pairwise (· ≤ ·)
        (((recordAll callsStrict emptySnapshotState).snapshots.reverse).map (fun e => e.createdAt)) ∧
    (List.Pairwise (· < ·) (callsStrict.map (fun c => c.1)) →
      List.Pairwise (· < ·)
        (((recordAll callsStrict emptySnapshotState).snapshots.reverse).map (fun e => e.createdAt))) ∧
    (recordAll callsStrict emptySnapshotState).activeSnapshotId =
      (callsStrict.getLast?).map (fun c => c.2.2.snapshotId)) :=
  ⟨by decide, C3_record_sequence_amended callsStrict (by decide)⟩

/-- C10: `revertSnapshot` is atomic on external failure: when the awaited
external restore rejects, only the error toast is raised and the snapshot
list and head pointer are exactly as before. -/
theorem C10_revert_atomic_on_failure (s : SnapshotState) (sid : String) :
    (revertSnapshot RevertOutcome.err sid s).1 = s ∧
    (revertSnapshot RevertOutcome.err sid s).2.status = "error" :=
  ⟨rfl, rfl⟩

/-- Fork status as held in the `localForkStatus` React state
(`{ running, port? }`). -/
structure ForkStatus where
  running : Bool
  port : Option Nat
deriving DecidableEq, Repr

/-- The state slice `stopLocalFork` touches: `localForkStatus`, `snapshots`
and `activeSnapshotId`. -/
structure ForkSessionState where
  localForkStatus : Option ForkStatus
  snapshots : List SnapshotEntry
  activeSnapshotId : Option String
deriving DecidableEq, Repr

/-- Outcome of an awaited `fetch`: the promise resolves (with any HTTP status,
error statuses included) or rejects at the transport level. -/
inductive FetchOutcome
  | resolved
  | rejected
deriving DecidableEq, Repr

/-- Source `stopLocalFork`: `await fetch("/fork/stop", {method:"POST"})`, then
`setLocalForkStatus({ running: false })`, `setSnapshots([])`,
`setActiveSnapshotId(null)`.  There is no try/catch around the awaited fetch:
when it rejects, the thrown error propagates and none of the three setters
runs.  The boolean result records whether the call threw. -/
def stopLocalFork (outcome : FetchOutcome) (s : ForkSessionState) : ForkSessionState × Bool :=
  match outcome with
  | FetchOutcome.rejected => (s, true)
  | FetchOutcome.resolved =>
      ({ localForkStatus := some { running := false, port := none }
         snapshots := []
         activeSnapshotId := none }, false)

/-- A running fork session holding one snapshot, used to instantiate the
`stopLocalFork` theorems. -/
def runningSession : ForkSessionState :=
  { localForkStatus := some { running := true, port := some 9000 }
    snapshots := [entryA]
    activeSnapshotId := some "0x1" }

/-- C8 counterexample: when the teardown fetch rejects, `stopLocalFork` throws
without transitioning the session to `{running:false}` and without clearing the
snapshot stack, so the claimed "regardless of the external call's outcome" does
not hold. -/
theorem C8_stop_counterexample :
    (stopLocalFork FetchOutcome.rejected runningSession).1 = runningSession ∧
    (stopLocalFork FetchOutcome.rejected runningSession).1.localForkStatus =
      some { running := true, port := some 9000 } ∧
    (stopLocalFork FetchOutcome.rejected runningSession).1.snapshots ≠ [] ∧
    (stopLocalFork FetchOutcome.rejected runningSession).2 = true := by
  decide

/-- C8 (amended): `stop()` transitions the session to `{running:false}` and
clears the snapshot stack (entries and head pointer) whenever the external
teardown request resolves, whatever its HTTP status; when the request rejects
at the transport level the error propagates and no local state changes. -/
theorem C8_stop_clears_state_amended (s : ForkSessionState) :
    (stopLocalFork FetchOutcome.resolved s).1 =
        { localForkStatus := some { running := false, port := none }
          snapshots := []
          activeSnapshotId := none } ∧
      (stopLocalFork FetchOutcome.resolved s).2 = false ∧
      (stopLocalFork FetchOutcome.rejected s).1 = s ∧
      (stopLocalFork FetchOutcome.rejected s).2 = true :=
  ⟨rfl, rfl, rfl, rfl⟩

/-- Program counter of one `ensureLocalClients` caller under cooperative
scheduling.  A caller at `start` is about to run the synchronous prefix: the
`if (localClients) return localClients` check and, on a miss, entering
`startLocalFork`, which issues `POST /fork/start` before its first `await`
suspends the caller.  A caller at `awaitingStart` resumes to finish
`startLocalFork` (the status fetch reports running, `setLocalForkStatus` makes
the derived `localClients` cache available) and `buildForkClients`. -/
inductive EnsurePC
  | start
  | awaitingStart
  | done
deriving DecidableEq, Repr

/-- Shared state for two concurrent `ensureLocalClients` callers: whether the
derived `localClients` cache is available, how many `POST /fork/start`
requests have been issued, and each caller's program counter. -/
structure EnsureSys where
  cache : Bool
  startCount : Nat
  pc1 : EnsurePC
  pc2 : EnsurePC
deriving DecidableEq, Repr

/-- One caller's next atomic segment of `ensureLocalClients`
(returns the new cache flag, start count and program counter). -/
def ensureStepOne (cache : Bool) (startCount : Nat) (pc : EnsurePC) :
    Bool × Nat × EnsurePC :=
  match pc with
  | EnsurePC.start =>
      if cache then (cache, startCount, EnsurePC.done)
      else (cache, startCount + 1, EnsurePC.awaitingStart)
  | EnsurePC.awaitingStart => (true, startCount, EnsurePC.done)
  | EnsurePC.done => (cache, startCount, EnsurePC.done)

/-- Run one scheduling step: `true` advances caller 1, `false` caller 2. -/
def ensureStep (s : EnsureSys) (caller : Bool) : EnsureSys :=
  if caller then
    let r := ensureStepOne s.cache s.startCount s.pc1
    { s with cache := r.1, startCount := r.2.1, pc1 := r.2.2 }
  else
    let r := ensureStepOne s.cache s.startCount s.pc2
    { s with cache := r.1, startCount := r.2.1, pc2 := r.2.2 }

/-- Run a cooperative schedule (a list of caller choices). -/
def ensureRun (sched : List Bool) (s : EnsureSys) : EnsureSys :=
  sched.foldl ensureStep s

/-- Initial state: no fork running, no cached clients, no start issued, both
callers about to enter `ensureLocalClients`. -/
def ensureInit : EnsureSys :=
  { cache := false, startCount := 0, pc1 := EnsurePC.start, pc2 := EnsurePC.start }

theorem ensureRun_no_new_starts (sched : List Bool) (s : EnsureSys)
    (h1 : s.pc1 ≠ EnsurePC.start) (h2 : s.pc2 ≠ EnsurePC.start) :
    (ensureRun sched s).startCount = s.startCount := by
  induction sched generalizing s with
  | nil => rfl
  | cons c cs ih =>
      have key : ∀ cache cnt pc, pc ≠ EnsurePC.start →
          (ensureStepOne cache cnt pc).2.1 = cnt ∧
          (ensureStepOne cache cnt pc).2.2 ≠ EnsurePC.start := by
        intro cache cnt pc hpc
        cases pc with
        | start => exact absurd rfl hpc
        | awaitingStart => exact ⟨rfl, fun h => nomatch h⟩
        | done => exact ⟨rfl, fun h => nomatch h⟩
      show (ensureRun cs (ensureStep s c)).startCount = _
      have h1' : (ensureStep s c).pc1 ≠ EnsurePC.start := by
        cases c
        · exact h1
        · exact (key s.cache s.startCount s.pc1 h1).2
      have h2' : (ensureStep s c).pc2 ≠ EnsurePC.start := by
        cases c
        · exact (key s.cache s.startCount s.pc2 h2).2
        · exact h2
      have hcnt : (ensureStep s c).startCount = s.startCount := by
        cases c
        · exact (key s.cache s.startCount s.pc2 h2).1
        · exact (key s.cache s.startCount s.pc1 h1).1
      rw [ih (ensureStep s c) h1' h2', hcnt]

/-- C9 counterexample: with no fork running and no cached client pair, a
schedule in which the second caller runs before the first finishes starting
issues two `POST /fork/start` requests, not one; both callers still complete. -/
theorem C9_single_flight_counterexample :
    (ensureRun [true, false, true, false] ensureInit).startCount = 2 ∧
    (ensureRun [true, false, true, false] ensureInit).startCount ≠ 1 ∧
    (ensureRun [true, false, true, false] ensureInit).pc1 = EnsurePC.done ∧
    (ensureRun [true, false, true, false] ensureInit).pc2 = EnsurePC.done := by
  decide

/-- C9 (amended): `ensureLocalClients` performs no single-flight coalescing.
Whenever both callers execute their cache check before either has finished
starting the fork, each issues its own start request (two in total, under any
continuation of the schedule); only a caller whose first step runs after the
other caller has completed the start reuses the cache and issues none (one in
total). -/
theorem C9_ensure_clients_amended (c : Bool) (rest : List Bool) :
    (ensureRun (c :: (!c) :: rest) ensureInit).startCount = 2 ∧
    (ensureRun (c :: c :: (!c) :: rest) ensureInit).startCount = 1 := by
  constructor
  · cases c with
    | false =>
        show (ensureRun rest
          { cache := false, startCount := 2
            pc1 := EnsurePC.awaitingStart, pc2 := EnsurePC.awaitingStart }).startCount = 2
        exact ensureRun_no_new_starts rest _ (fun h => nomatch h) (fun h => nomatch h)
    | true =>
        show (ensureRun rest
          { cache := false, startCount := 2
            pc1 := EnsurePC.awaitingStart, pc2 := EnsurePC.awaitingStart }).startCount = 2
        exact ensureRun_no_new_starts rest _ (fun h => nomatch h) (fun h => nomatch h)
  · cases c with
    | false =>
        show (ensureRun rest
          { cache := true, startCount := 1
            pc1 := EnsurePC.done, pc2 := EnsurePC.done }).startCount = 1
        exact ensureRun_no_new_starts rest _ (fun h => nomatch h) (fun h => nomatch h)
    | true =>
        show (ensureRun rest
          { cache := true, startCount := 1
            pc1 := EnsurePC.done, pc2 := EnsurePC.done }).startCount = 1
        exact ensureRun_no_new_starts rest _ (fun h => nomatch h) (fun h => nomatch h)

/-- Observable events of one mutating execution, in program order:
taking/recording a snapshot (`createSnapshotEntry`, i.e. `testClient.snapshot()`
plus `onSnapshotCreated`), submitting the transaction to the node
(`writeContract` / `deployContract` / `sendTransaction` / `request`), and
awaiting the receipt (`waitForTransactionReceipt`). -/
inductive ExecEvent
  | snapshotRecord
  | dispatch
  | receiptAwait
deriving DecidableEq, Repr

/-- The mutating paths through `handleExecute` in local mode: form-view
function write, form-view deploy, raw-view `eth_sendTransaction`
(the interception branch), and raw-view for any other non-`eth_call` method. -/
inductive ExecPath
  | formWrite
  | formDeploy
  | rawSendTransaction
  | rawOtherMutating
deriving DecidableEq, Repr

/-- Event order of `handleExecute` (local mode, successful run) as a function
of the path and the current `snapshotsCount`:
in the form and raw-other paths a pre-dispatch `createSnapshotEntry` runs only
under `if (snapshotsCount === 0)`, and a post-receipt `createSnapshotEntry`
always runs; in the raw `eth_sendTransaction` interception branch the only
`createSnapshotEntry` sits after the receipt, again guarded by
`if (snapshotsCount === 0)`. -/
def handleExecuteEvents (path : ExecPath) (snapshotsCount : Nat) : List ExecEvent :=
  match path with
  | ExecPath.rawSendTransaction =>
      [ExecEvent.dispatch, ExecEvent.receiptAwait] ++
        (if snapshotsCount = 0 then [ExecEvent.snapshotRecord] else [])
  | _ =>
      (if snapshotsCount = 0 then [ExecEvent.snapshotRecord] else []) ++
        [ExecEvent.dispatch, ExecEvent.receiptAwait, ExecEvent.snapshotRecord]

/-- Event order of `handleSendEth` (ContractDetailsTab, local mode, successful
run): both its raw branch and its form (Send ETH) branch take the pre-dispatch
snapshot only under `if (snapshotsCount === 0)` and always record after the
receipt. -/
def handleSendEthEvents (rawView : Bool) (snapshotsCount : Nat) : List ExecEvent :=
  match rawView with
  | true =>
      (if snapshotsCount = 0 then [ExecEvent.snapshotRecord] else []) ++
        [ExecEvent.dispatch, ExecEvent.receiptAwait, ExecEvent.snapshotRecord]
  | false =>
      (if snapshotsCount = 0 then [ExecEvent.snapshotRecord] else []) ++
        [ExecEvent.dispatch, ExecEvent.receiptAwait, ExecEvent.snapshotRecord]

/-- Does some snapshot-record event occur strictly before the first dispatch? -/
def snapshotBeforeDispatch (l : List ExecEvent) : Bool :=
  (l.takeWhile (fun e => !(e == ExecEvent.dispatch))).contains ExecEvent.snapshotRecord

/-- C4 counterexample: a form-view mutating call in local mode with one prior
snapshot dispatches first and records its snapshot only after the receipt, so
snapshot-record does not precede dispatch for this (subsequent) action. -/
theorem C4_snapshot_order_counterexample :
    ExecEvent.dispatch ∈ handleExecuteEvents ExecPath.formWrite 1 ∧
    ExecEvent.snapshotRecord ∈ handleExecuteEvents ExecPath.formWrite 1 ∧
    snapshotBeforeDispatch (handleExecuteEvents ExecPath.formWrite 1) = false ∧
    handleExecuteEvents ExecPath.formWrite 1 =
      [ExecEvent.dispatch, ExecEvent.receiptAwait, ExecEvent.snapshotRecord] := by
  decide

/-- C4 (amended): in local mode a snapshot-record precedes dispatch exactly for
the first mutating action of a session (`snapshotsCount = 0`) outside the raw
`eth_sendTransaction` interception branch; every subsequent action (and every
raw `eth_sendTransaction`) records its snapshot only after the receipt is
awaited, if at all.  The same holds for `handleSendEth`, whose both branches
snapshot before dispatch exactly when `snapshotsCount = 0`. -/
theorem C4_snapshot_order_amended (path : ExecPath) (count : Nat) (rawView : Bool) :
    (snapshotBeforeDispatch (handleExecuteEvents path count) = true ↔
      (count = 0 ∧ path ≠ ExecPath.rawSendTransaction)) ∧
    (snapshotBeforeDispatch (handleSendEthEvents rawView count) = true ↔ count = 0) := by
  cases path <;> cases rawView <;> cases count <;>
    simp [handleExecuteEvents, handleSendEthEvents, snapshotBeforeDispatch]

/-- The call description `fetchTrace` sends to the call-based tracer
(`lastCallParams` / `callParamsSnapshot` shape, reduced to the fields the
tracer consumes). -/
structure CallDescription where
  «to» : Option String
  data : String
deriving DecidableEq, Repr

/-- The request `fetchTrace` ends up issuing (or the fail-fast message it
shows instead). -/
inductive TraceAction
  | byHash (rpcUrl : String) (txHash : String)
  | byCall (rpcUrl : String) (call : CallDescription) (blockTag : String)
  | unavailableMissingHash
  | unavailableMissingCall
  | noAction
deriving DecidableEq, Repr

/-- The operator-selected execution mode. -/
inductive Mode
  | live
  | local
deriving DecidableEq, Repr

/-- Source resolution of `effectiveCallParams` inside `fetchTrace`:
`callParamsOverride || lastCallParams`, else (when the raw view is active) the
parsed `rawJsonInput` params, else the `buildCallParams()` fallback when that
has calldata. -/
def effectiveCallParams (callParamsOverride lastCallParams : Option CallDescription)
    (rpcView : Bool) (rawParsed fallback : Option CallDescription) :
    Option CallDescription :=
  match callParamsOverride.or lastCallParams with
  | some c => some c
  | none =>
      match (if rpcView then rawParsed else none) with
      | some c => some c
      | none => fallback

/-- Source `fetchTrace` decision rule.  `traceMode` is
`lastExecutionMode ?? globalMode`; `forkRpc` is the endpoint of the local
clients (`clients.rpcUrl`); `txHash` is
`response?.transactionHash || response?.hash || lastTxHash`; `callParams` is
the resolved `effectiveCallParams`.  In local mode: without an error it traces
by hash, showing "Trace unavailable: missing transaction hash." when no hash is
known; with an error it traces by call at the "latest" block tag, showing
"Trace unavailable: missing call data." when no call description is known.  In
live mode the same logic runs against `rpcUrl`, guarded by `else if (rpcUrl)`:
with an empty `rpcUrl` nothing happens. -/
def fetchTrace (traceMode : Mode) (forkRpc rpcUrl : String) (hadError : Bool)
    (txHash : Option String) (callParams : Option CallDescription) : TraceAction :=
  match traceMode with
  | Mode.local =>
      if !hadError then
        match txHash with
        | none => TraceAction.unavailableMissingHash
        | some h => TraceAction.byHash forkRpc h
      else
        match callParams with
        | none => TraceAction.unavailableMissingCall
        | some c => TraceAction.byCall forkRpc c "latest"
  | Mode.live =>
      if rpcUrl ≠ "" then
        if !hadError then
          match txHash with
          | none => TraceAction.unavailableMissingHash
          | some h => TraceAction.byHash rpcUrl h
        else
          match callParams with
          | none => TraceAction.unavailableMissingCall
          | some c => TraceAction.byCall rpcUrl c "latest"
      else TraceAction.noAction

/-- A concrete call description for the trace theorems. -/
def sampleCall : CallDescription := { «to» := some "0xabc", data := "0xdeadbeef" }

/-- C7 counterexample: with no execution error, no known transaction hash, and
a call description available, `fetchTrace` fails fast with the missing-hash
message instead of tracing by synthesized call as the claim requires. -/
theorem C7_trace_counterexample :
    fetchTrace Mode.local "http://127.0.0.1:9000" "" false none (some sampleCall) =
      TraceAction.unavailableMissingHash ∧
    fetchTrace Mode.local "http://127.0.0.1:9000" "" false none (some sampleCall) ≠
      TraceAction.byCall "http://127.0.0.1:9000" sampleCall "latest" := by
  decide

/-- C7 (amended): after an execution, the trace is fetched by hash when the
execution did not error and a hash is known; when the execution errored it is
fetched by synthesized call from the last attempted call description at the
"latest" block tag, failing fast with a missing-call message if no description
is available; when the execution did not error but no hash is known it fails
fast with a missing-hash message (it does not fall back to call-based
tracing); in live mode the same rule runs against the configured endpoint when
one is set. -/
theorem C7_trace_decision_amended (forkRpc rpcUrl : String) (h : String)
    (c : CallDescription) (txh : Option String) (cp : Option CallDescription) :
    fetchTrace Mode.local forkRpc rpcUrl false (some h) cp =
        TraceAction.byHash forkRpc h ∧
      fetchTrace Mode.local forkRpc rpcUrl false none cp =
        TraceAction.unavailableMissingHash ∧
      fetchTrace Mode.local forkRpc rpcUrl true txh (some c) =
        TraceAction.byCall forkRpc c "latest" ∧
      fetchTrace Mode.local forkRpc rpcUrl true txh none =
        TraceAction.unavailableMissingCall ∧
      fetchTrace Mode.live forkRpc "" false (some h) cp = TraceAction.noAction ∧
      (rpcUrl ≠ "" →
        fetchTrace Mode.live forkRpc rpcUrl false (some h) cp =
            TraceAction.byHash rpcUrl h ∧
          fetchTrace Mode.live forkRpc rpcUrl true txh (some c) =
            TraceAction.byCall rpcUrl c "latest") := by
  refine ⟨rfl, rfl, rfl, rfl, rfl, ?_⟩
  intro hr
  exact ⟨by simp [fetchTrace, hr], by simp [fetchTrace, hr]⟩

theorem C7_trace_decision_amended_witness :
    fetchTrace Mode.local "http://127.0.0.1:9000" "http://rpc.example" false
        (some "0xh") (some sampleCall) =
      TraceAction.byHash "http://127.0.0.1:9000" "0xh" ∧
    fetchTrace Mode.local "http://127.0.0.1:9000" "http://rpc.example" false none
        (some sampleCall) = TraceAction.unavailableMissingHash ∧
    fetchTrace Mode.local "http://127.0.0.1:9000" "http://rpc.example" true
        (some "0xh") (some sampleCall) =
      TraceAction.byCall "http://127.0.0.1:9000" sampleCall "latest" ∧
    fetchTrace Mode.local "http://127.0.0.1:9000" "http://rpc.example" true
        (some "0xh") none = TraceAction.unavailableMissingCall ∧
    fetchTrace Mode.live "http://127.0.0.1:9000" "" false (some "0xh")
        (some sampleCall) = TraceAction.noAction ∧
    ("http://rpc.example" ≠ "" →
      fetchTrace Mode.live "http://127.0.0.1:9000" "http://rpc.example" false
          (some "0xh") (some sampleCall) =
        TraceAction.byHash "http://rpc.example" "0xh" ∧
      fetchTrace Mode.live "http://127.0.0.1:9000" "http://rpc.example" true
          (some "0xh") (some sampleCall) =
        TraceAction.byCall "http://rpc.example" sampleCall "latest") :=
  C7_trace_decision_amended "http://127.0.0.1:9000" "http://rpc.example" "0xh"
    sampleCall (some "0xh") (some sampleCall)

/-- Little-endian base-16 digits of `n`, with an explicit structural fuel
(`fuel = n` suffices since the value shrinks by division by 16 each step). -/
def hexDigitsAux : Nat → Nat → List Nat
  | 0, _ => []
  | _ + 1, 0 => []
  | fuel + 1, n + 1 => ((n + 1) % 16) :: hexDigitsAux fuel ((n + 1) / 16)

/-- Little-endian base-16 digits of `n`. -/
def hexDigits (n : Nat) : List Nat := hexDigitsAux n n

/-- Lowercase hex digit character for a value below 16, as produced by the
JS `BigInt.prototype.toString(16)`. -/
def hexDigitChar (d : Nat) : Char :=
  if d < 10 then Char.ofNat (48 + d) else Char.ofNat (87 + d)

/-- The characters after the `0x` prefix of `` `0x${v.toString(16)}` ``:
most-significant digit first, a single `'0'` for zero. -/
def hexChars (n : Nat) : List Char :=
  match n with
  | 0 => ['0']
  | _ => (hexDigits n).reverse.map hexDigitChar

/-- JS `` `0x${v.toString(16)}` `` on a BigInt value. -/
def hexOfNat (n : Nat) : String :=
  String.mk ('0' :: 'x' :: hexChars n)

/-- Numeric value of a hex digit character, upper or lower case
(the alphabet `BigInt("0x…")` accepts). -/
def hexDigitVal? (c : Char) : Option Nat :=
  if 48 ≤ c.toNat ∧ c.toNat ≤ 57 then some (c.toNat - 48)
  else if 97 ≤ c.toNat ∧ c.toNat ≤ 102 then some (c.toNat - 87)
  else if 65 ≤ c.toNat ∧ c.toNat ≤ 70 then some (c.toNat - 55)
  else none

/-- Numeric value of a decimal digit character. -/
def decDigitVal? (c : Char) : Option Nat :=
  if 48 ≤ c.toNat ∧ c.toNat ≤ 57 then some (c.toNat - 48)
  else none

/-- Map a digit alphabet over a character list, failing on the first
character outside the alphabet (as `BigInt(s)` throws on a bad digit). -/
def digitVals? (digit : Char → Option Nat) : List Char → Option (List Nat)
  | [] => some []
  | c :: cs =>
      match digit c, digitVals? digit cs with
      | some d, some ds => some (d :: ds)
      | _, _ => none

/-- JS `BigInt(s)` restricted to the shapes this code feeds it: a `0x`-prefixed
hex literal (uppercase digits accepted) or a plain decimal literal; `none`
models the `SyntaxError` throw.  (`BigInt("")` is `0n`, covered by the decimal
branch on the empty list; `BigInt("0x")` throws.) -/
def parseBigInt? (s : String) : Option Nat :=
  if s.toList.take 2 = ['0', 'x'] then
    if (s.toList.drop 2).isEmpty then none
    else (digitVals? hexDigitVal? (s.toList.drop 2)).map
      (fun ds => Nat.ofDigits 16 ds.reverse)
  else (digitVals? decDigitVal? s.toList).map (fun ds => Nat.ofDigits 10 ds.reverse)

theorem hexDigitsAux_lt (fuel n : Nat) : ∀ d ∈ hexDigitsAux fuel n, d < 16 := by
  induction fuel generalizing n with
  | zero => intro d hd; simp [hexDigitsAux] at hd
  | succ fuel ih =>
      cases n with
      | zero => intro d hd; simp [hexDigitsAux] at hd
      | succ m =>
          intro d hd
          simp only [hexDigitsAux, List.mem_cons] at hd
          rcases hd with h | h
          · subst h; exact Nat.mod_lt _ (by omega)
          · exact ih _ d h

theorem ofDigits_hexDigitsAux (fuel n : Nat) (h : n ≤ fuel) :
    Nat.ofDigits 16 (hexDigitsAux fuel n) = n := by
  induction fuel generalizing n with
  | zero =>
      interval_cases n
      simp [hexDigitsAux, Nat.ofDigits]
  | succ fuel ih =>
      cases n with
      | zero => simp [hexDigitsAux, Nat.ofDigits]
      | succ m =>
          have hdiv : (m + 1) / 16 ≤ fuel := by
            have := Nat.div_lt_self (by omega : 0 < m + 1) (by omega : 1 < 16)
            omega
          simp only [hexDigitsAux, Nat.ofDigits_cons, ih _ hdiv]
          omega

theorem ofDigits_hexDigits (n : Nat) : Nat.ofDigits 16 (hexDigits n) = n :=
  ofDigits_hexDigitsAux n n (Nat.le_refl n)

theorem hexDigitVal_hexDigitChar (d : Nat) (h : d < 16) :
    hexDigitVal? (hexDigitChar d) = some d := by
  interval_cases d <;> rfl

theorem digitVals_map_hexDigitChar (l : List Nat) (h : ∀ d ∈ l, d < 16) :
    digitVals? hexDigitVal? (l.map hexDigitChar) = some l := by
  induction l with
  | nil => rfl
  | cons d ds ih =>
      have hd : d < 16 := h d (List.mem_cons_self d ds)
      have hds : ∀ x ∈ ds, x < 16 := fun x hx => h x (List.mem_cons_of_mem d hx)
      simp only [List.map_cons, digitVals?, hexDigitVal_hexDigitChar d hd, ih hds]

theorem parseBigInt_hexOfNat (n : Nat) : parseBigInt? (hexOfNat n) = some n := by
  cases n with
  | zero => decide
  | succ m =>
      have happend : ∀ (l : List Char) (a : Char), ((l ++ [a]).isEmpty) = false := by
        intro l a; cases l <;> rfl
      have hchars : hexChars (m + 1) = (hexDigits (m + 1)).reverse.map hexDigitChar := rfl
      have hcons : hexDigits (m + 1) = ((m + 1) % 16) :: hexDigitsAux m ((m + 1) / 16) := rfl
      have htake : (hexOfNat (m + 1)).toList.take 2 = ['0', 'x'] := rfl
      have hdrop : (hexOfNat (m + 1)).toList.drop 2 = hexChars (m + 1) := rfl
      have hnonempty : (hexChars (m + 1)).isEmpty = false := by
        rw [hchars, hcons, List.reverse_cons, List.map_append]
        exact happend _ _
      have hvals : digitVals? hexDigitVal? (hexChars (m + 1)) =
          some ((hexDigits (m + 1)).reverse) := by
        rw [hchars]
        exact digitVals_map_hexDigitChar _ (fun d hd =>
          hexDigitsAux_lt (m + 1) (m + 1) d (List.mem_reverse.mp hd))
      simp only [parseBigInt?, htake, hdrop, hnonempty, hvals, if_true, reduceIte,
        Bool.false_eq_true, if_false]
      show some (Nat.ofDigits 16 ((hexDigits (m + 1)).reverse.reverse)) = some (m + 1)
      rw [List.reverse_reverse, ofDigits_hexDigits]

/-- The `params[0]` object of a generated JSON-RPC envelope.  `none` models a
field the source leaves `undefined`, which `JSON.stringify` omits from the
serialized envelope. -/
structure RawParams where
  «to» : Option String
  «from» : Option String
  data : Option String
  value : Option String
  gas : Option String
deriving DecidableEq, Repr

/-- A JSON-RPC envelope as authored in the request tab: the method name, the
`params[0]` object, and the optional `params[1]` block tag (`"latest"` for
`eth_call`; `undefined` otherwise and removed by `.filter(Boolean)`). -/
structure RawEnvelope where
  method : String
  params0 : RawParams
  blockTag : Option String
deriving DecidableEq, Repr

/-- The request kind of the tab (`type` prop of the request component). -/
inductive ReqType
  | deploy
  | function
deriving DecidableEq, Repr

/-- The ambient context `generateRawJson` / `handleViewSwitch` close over:
the request type, the deploy sub-mode, the `isView` mutability flag of the
selected ABI item, the contract address, the wallet account address
(`walletClient.account?.address`) and the deploy bytecode. -/
structure FormCtx where
  type : ReqType
  deployModeAtAddress : Bool
  isView : Bool
  contractAddress : String
  accountAddress : Option String
  bytecode : Option String
deriving DecidableEq, Repr

/-- The form-state slice the translation reads and writes, abstracted over the
type `Args` of decoded structured arguments: `valueWei` is the wei amount the
value text field parses to (`getValueInWei()`: `none` when the field is empty
or unparseable, mirroring `undefined`); `gasLimit` is the BigInt the gas field
parses to (`none` when the field is empty); `inputs` is the structured
argument list when `buildArgs()` succeeds. -/
structure FormState (Args : Type) where
  valueWei : Option Nat
  gasLimit : Option Nat
  inputs : Option Args

/-- The `value:` expression of `generateRawJson`'s function branch:
`valBigInt ? hex(valBigInt) : (isView ? undefined : "0x0")`, where a BigInt
`0n` is falsy. -/
def encodeValueField (isView : Bool) (valueWei : Option Nat) : Option String :=
  match valueWei with
  | some v => if v ≠ 0 then some (hexOfNat v) else if isView then none else some "0x0"
  | none => if isView then none else some "0x0"

/-- The `gas:` expression of `generateRawJson`: `gas ? hex(gas) : undefined`,
where a BigInt `0n` is falsy. -/
def encodeGasField (gasLimit : Option Nat) : Option String :=
  match gasLimit with
  | some g => if g ≠ 0 then some (hexOfNat g) else none
  | none => none

/-- Source `generateRawJson` (request tab): `none` models the function
returning `""` (the surrounding try/catch when `buildArgs()` or
`encodeFunctionData` throws — abstracted to `inputs = none` — and the explicit
`return ""` for the at-address deploy sub-mode).  `enc` stands for
`encodeFunctionData` on the tab's single ABI item. -/
def generateRawJson {Args : Type} (enc : Args → String) (ctx : FormCtx)
    (fs : FormState Args) : Option RawEnvelope :=
  match fs.inputs with
  | none => none
  | some args =>
      match ctx.type with
      | ReqType.deploy =>
          if ctx.deployModeAtAddress then none
          else
            some
              { method := "eth_sendTransaction"
                params0 :=
                  { «to» := none
                    «from» := ctx.accountAddress
                    data := some (ctx.bytecode.getD "0x")
                    value :=
                      match fs.valueWei with
                      | some v => if v ≠ 0 then some (hexOfNat v) else some "0x0"
                      | none => some "0x0"
                    gas := encodeGasField fs.gasLimit }
                blockTag := none }
      | ReqType.function =>
          some
            { method := if ctx.isView then "eth_call" else "eth_sendTransaction"
              params0 :=
                { «to» := some ctx.contractAddress
                  «from» := ctx.accountAddress
                  data := some (enc args)
                  value := encodeValueField ctx.isView fs.valueWei
                  gas := encodeGasField fs.gasLimit }
              blockTag := if ctx.isView then some "latest" else none }

/-- Source `generateInteractRawJson` (ContractDetailsTab): always
`eth_sendTransaction`, data is `calldata || '0x'`, value defaults to `"0x0"`
when absent or zero, gas is omitted when absent or zero. -/
def generateInteractRawJson (contractAddress : String) (accountAddress : Option String)
    (calldata : Option String) (valueWei gasLimit : Option Nat) : RawEnvelope :=
  { method := "eth_sendTransaction"
    params0 :=
      { «to» := some contractAddress
        «from» := accountAddress
        data := some (calldata.getD "0x")
        value :=
          match valueWei with
          | some v => if v ≠ 0 then some (hexOfNat v) else some "0x0"
          | none => some "0x0"
        gas := encodeGasField gasLimit }
    blockTag := none }

/-- Source `handleViewSwitch("form")` while the raw view is active: parses
`rawJsonInput` (`parsed = none` models a `JSON.parse` failure, which the catch
block turns into "no update"), then inside one try block sequentially
(1) `if (params.value) setValue(formatUnits(BigInt(params.value), unit))`,
(2) `if (params.gas) setGasLimit(BigInt(params.gas).toString())`,
(3) for a function tab with truthy `params.data`, decodes the calldata
(`dec`, standing for `decodeFunctionData`) into the structured inputs.
A `BigInt` throw aborts the block but keeps the setter writes already made;
a decode failure likewise keeps the value/gas writes. -/
def handleViewSwitchToForm {Args : Type} (dec : String → Option Args) (ctx : FormCtx)
    (parsed : Option RawEnvelope) (fs : FormState Args) : FormState Args :=
  match parsed with
  | none => fs
  | some env =>
      let step1 : Option (FormState Args) :=
        match env.params0.value with
        | some s =>
            if s = "" then some fs
            else
              match parseBigInt? s with
              | some w => some { fs with valueWei := some w }
              | none => none
        | none => some fs
      match step1 with
      | none => fs
      | some fs1 =>
          let step2 : Option (FormState Args) :=
            match env.params0.gas with
            | some s =>
                if s = "" then some fs1
                else
                  match parseBigInt? s with
                  | some g => some { fs1 with gasLimit := some g }
                  | none => none
            | none => some fs1
          match step2 with
          | none => fs1
          | some fs2 =>
              if ctx.type = ReqType.function then
                match env.params0.data with
                | some d =>
                    if d = "" then fs2
                    else
                      match dec d with
                      | some args => { fs2 with inputs := some args }
                      | none => fs2
                | none => fs2
              else fs2

/-- The form state of a freshly considered envelope: empty value and gas
fields, no decoded inputs. -/
def cleanFormState (Args : Type) : FormState Args :=
  { valueWei := none, gasLimit := none, inputs := none }

/-- A canonically encoded `value` field: minimal lowercase hex of a positive
amount, or the explicit `"0x0"` a mutating call carries, or absent on a read
call. -/
def canonicalValueField (isView : Bool) : Option String → Prop
  | some s => (∃ v, 0 < v ∧ s = hexOfNat v) ∨ (s = "0x0" ∧ isView = false)
  | none => isView = true

/-- A canonically encoded `gas` field: absent, or minimal lowercase hex of a
positive limit. -/
def canonicalGasField : Option String → Prop
  | some s => ∃ g, 0 < g ∧ s = hexOfNat g
  | none => True

/-- Well-formedness of an envelope relative to the tab context: a function-tab
envelope whose method matches the ABI item's mutability, whose `to`/`from`
match the ambient context, whose calldata is a canonical encoding that the
ABI item decodes back (`dec` is a left inverse of `enc` at this argument
list), whose numeric fields are canonically `0x`-encoded, and whose block tag
matches the method. -/
def wellFormedEnvelope {Args : Type} (enc : Args → String) (dec : String → Option Args)
    (ctx : FormCtx) (e : RawEnvelope) : Prop :=
  ctx.type = ReqType.function ∧
  e.method = (if ctx.isView then "eth_call" else "eth_sendTransaction") ∧
  e.params0.«to» = some ctx.contractAddress ∧
  e.params0.«from» = ctx.accountAddress ∧
  (∃ a, e.params0.data = some (enc a) ∧ dec (enc a) = some a ∧ enc a ≠ "") ∧
  canonicalValueField ctx.isView e.params0.value ∧
  canonicalGasField e.params0.gas ∧
  e.blockTag = (if ctx.isView then some "latest" else none)

theorem hexOfNat_ne_empty (n : Nat) : hexOfNat n ≠ "" := by
  intro h
  have : ('0' :: 'x' :: hexChars n) = ([] : List Char) := congrArg String.toList h
  exact List.noConfusion this

theorem parseBigInt_0x0 : parseBigInt? "0x0" = some 0 := by decide

theorem str0x0_ne_empty : ("0x0" : String) ≠ "" := by decide

/-- C5: for a well-formed envelope consistent with the tab context (canonical
hex numerics and calldata that the ABI item decodes back), switching the raw
view to the form view and regenerating the raw JSON reproduces the original
envelope exactly. -/
theorem C5_raw_form_roundtrip {Args : Type} (enc : Args → String)
    (dec : String → Option Args) (ctx : FormCtx) (e : RawEnvelope)
    (hwf : wellFormedEnvelope enc dec ctx e) :
    generateRawJson enc ctx (handleViewSwitchToForm dec ctx (some e) (cleanFormState Args)) =
      some e := by
  obtain ⟨htype, hmethod, hto, hfrom, ⟨a, hdata, hdec, hne⟩, hval, hgas, hbt⟩ := hwf
  obtain ⟨m0, p0, bt0⟩ := e
  obtain ⟨pto, pfrom, pdata, pvalue, pgas⟩ := p0
  simp only at hmethod hto hfrom hdata hval hgas hbt
  subst hmethod
  subst hto
  subst hfrom
  subst hdata
  subst hbt
  rcases pgas with _ | t
  · rcases pvalue with _ | s
    · simp only [canonicalValueField] at hval
      simp [handleViewSwitchToForm, cleanFormState, generateRawJson, htype,
        encodeValueField, encodeGasField, hne, hdec, hval]
    · simp only [canonicalValueField] at hval
      rcases hval with ⟨v, hv, rfl⟩ | ⟨hs, hview⟩
      · have hv0 : v ≠ 0 := Nat.pos_iff_ne_zero.mp hv
        simp [handleViewSwitchToForm, cleanFormState, generateRawJson, htype,
          encodeValueField, encodeGasField, hne, hdec, hexOfNat_ne_empty v,
          parseBigInt_hexOfNat, hv0]
      · subst hs
        simp [handleViewSwitchToForm, cleanFormState, generateRawJson, htype,
          encodeValueField, encodeGasField, hne, hdec, hview, parseBigInt_0x0,
          str0x0_ne_empty]
  · simp only [canonicalGasField] at hgas
    obtain ⟨g, hg, rfl⟩ := hgas
    have hg0 : g ≠ 0 := Nat.pos_iff_ne_zero.mp hg
    rcases pvalue with _ | s
    · simp only [canonicalValueField] at hval
      simp [handleViewSwitchToForm, cleanFormState, generateRawJson, htype,
        encodeValueField, encodeGasField, hne, hdec, hval, hexOfNat_ne_empty g,
        parseBigInt_hexOfNat, hg0]
    · simp only [canonicalValueField] at hval
      rcases hval with ⟨v, hv, rfl⟩ | ⟨hs, hview⟩
      · have hv0 : v ≠ 0 := Nat.pos_iff_ne_zero.mp hv
        simp [handleViewSwitchToForm, cleanFormState, generateRawJson, htype,
          encodeValueField, encodeGasField, hne, hdec, hexOfNat_ne_empty v,
          hexOfNat_ne_empty g, parseBigInt_hexOfNat, hv0, hg0]
      · subst hs
        simp [handleViewSwitchToForm, cleanFormState, generateRawJson, htype,
          encodeValueField, encodeGasField, hne, hdec, hview, parseBigInt_0x0,
          str0x0_ne_empty, hexOfNat_ne_empty g, parseBigInt_hexOfNat, hg0]

/-- Sample calldata encoder standing in for `encodeFunctionData` on a
single-item ABI: a fixed canonical encoding. -/
def sampleEnc : Nat → String := fun _ => "0xfeedc0de"

/-- Sample calldata decoder standing in for `decodeFunctionData`: inverts
`sampleEnc` on its canonical output. -/
def sampleDec : String → Option Nat :=
  fun s => if s = "0xfeedc0de" then some 7 else none

/-- A mutating function-tab context. -/
def sampleCtx : FormCtx :=
  { type := ReqType.function, deployModeAtAddress := false, isView := false
    contractAddress := "0xc0ffee", accountAddress := some "0xacc", bytecode := none }

/-- A well-formed mutating envelope for `sampleCtx`. -/
def sampleEnvelope : RawEnvelope :=
  { method := "eth_sendTransaction"
    params0 :=
      { «to» := some "0xc0ffee", «from» := some "0xacc", data := some "0xfeedc0de"
        value := some "0x1", gas := some "0x5208" }
    blockTag := none }

theorem C5_raw_form_roundtrip_witness :
    wellFormedEnvelope sampleEnc sampleDec sampleCtx sampleEnvelope ∧
    generateRawJson sampleEnc sampleCtx
        (handleViewSwitchToForm sampleDec sampleCtx (some sampleEnvelope)
          (cleanFormState Nat)) =
      some sampleEnvelope := by
  have hwf : wellFormedEnvelope sampleEnc sampleDec sampleCtx sampleEnvelope := by
    refine ⟨rfl, rfl, rfl, rfl, ⟨7, rfl, by decide, by decide⟩, ?_, ?_, rfl⟩
    · exact Or.inl ⟨1, by decide, by decide⟩
    · exact ⟨21000, by decide, by decide⟩
  exact ⟨hwf, C5_raw_form_roundtrip sampleEnc sampleDec sampleCtx sampleEnvelope hwf⟩

/-- C6: `toRaw` is a function of the form fields (deterministic); the method is
`eth_call` exactly for a view call and `eth_sendTransaction` for a mutating
one; present numeric fields are `0x`-prefixed hex; an absent gas is omitted
(`undefined`), not zero-filled; an absent value becomes `"0x0"` for a mutating
call and is omitted for a read call.  `generateInteractRawJson` likewise always
selects `eth_sendTransaction`, defaults an absent value to `"0x0"` and omits an
absent gas. -/
theorem C6_toRaw_encoding {Args : Type} (enc : Args → String) (ctx : FormCtx)
    (fs : FormState Args) (args : Args) (v g : Nat) (addr : String)
    (acct : Option String) (cd : Option String)
    (hinputs : fs.inputs = some args) (hfun : ctx.type = ReqType.function) :
    (generateRawJson enc ctx fs).map (fun env => env.method) =
        some (if ctx.isView then "eth_call" else "eth_sendTransaction") ∧
      (fs.gasLimit = none →
        (generateRawJson enc ctx fs).map (fun env => env.params0.gas) = some none) ∧
      (fs.gasLimit = some g → 0 < g →
        (generateRawJson enc ctx fs).map (fun env => env.params0.gas) =
          some (some (hexOfNat g))) ∧
      (fs.valueWei = none → ctx.isView = false →
        (generateRawJson enc ctx fs).map (fun env => env.params0.value) =
          some (some "0x0")) ∧
      (fs.valueWei = none → ctx.isView = true →
        (generateRawJson enc ctx fs).map (fun env => env.params0.value) = some none) ∧
      (fs.valueWei = some v → 0 < v →
        (generateRawJson enc ctx fs).map (fun env => env.params0.value) =
          some (some (hexOfNat v))) ∧
      (hexOfNat v).toList.take 2 = ['0', 'x'] ∧
      (generateInteractRawJson addr acct cd fs.valueWei fs.gasLimit).method =
        "eth_sendTransaction" ∧
      (fs.valueWei = none →
        (generateInteractRawJson addr acct cd fs.valueWei fs.gasLimit).params0.value =
          some "0x0") ∧
      (fs.gasLimit = none →
        (generateInteractRawJson addr acct cd fs.valueWei fs.gasLimit).params0.gas =
          none) := by
  refine ⟨?_, ?_, ?_, ?_, ?_, ?_, rfl, rfl, ?_, ?_⟩
  · simp [generateRawJson, hinputs, hfun]
  · intro h
    simp [generateRawJson, hinputs, hfun, encodeGasField, h]
  · intro h hpos
    simp [generateRawJson, hinputs, hfun, encodeGasField, h,
      Nat.pos_iff_ne_zero.mp hpos]
  · intro h hview
    simp [generateRawJson, hinputs, hfun, encodeValueField, h, hview]
  · intro h hview
    simp [generateRawJson, hinputs, hfun, encodeValueField, h, hview]
  · intro h hpos
    simp [generateRawJson, hinputs, hfun, encodeValueField, h,
      Nat.pos_iff_ne_zero.mp hpos]
  · intro h
    simp [generateInteractRawJson, h]
  · intro h
    simp [generateInteractRawJson, encodeGasField, h]

/-- A filled mutating form state (1 wei value, 21000 gas, decoded args). -/
def sampleFormState : FormState Nat :=
  { valueWei := some 1, gasLimit := some 21000, inputs := some 7 }

theorem C6_toRaw_encoding_witness :
    sampleFormState.inputs = some 7 ∧
    sampleCtx.type = ReqType.function ∧
    ((generateRawJson sampleEnc sampleCtx sampleFormState).map (fun env => env.method) =
        some (if sampleCtx.isView then "eth_call" else "eth_sendTransaction") ∧
      (sampleFormState.gasLimit = none →
        (generateRawJson sampleEnc sampleCtx sampleFormState).map
          (fun env => env.params0.gas) = some none) ∧
      (sampleFormState.gasLimit = some 21000 → 0 < 21000 →
        (generateRawJson sampleEnc sampleCtx sampleFormState).map
          (fun env => env.params0.gas) = some (some (hexOfNat 21000))) ∧
      (sampleFormState.valueWei = none → sampleCtx.isView = false →
        (generateRawJson sampleEnc sampleCtx sampleFormState).map
          (fun env => env.params0.value) = some (some "0x0")) ∧
      (sampleFormState.valueWei = none → sampleCtx.isView = true →
        (generateRawJson sampleEnc sampleCtx sampleFormState).map
          (fun env => env.params0.value) = some none) ∧
      (sampleFormState.valueWei = some 1 → 0 < 1 →
        (generateRawJson sampleEnc sampleCtx sampleFormState).map
          (fun env => env.params0.value) = some (some (hexOfNat 1))) ∧
      (hexOfNat 1).toList.take 2 = ['0', 'x'] ∧
      (generateInteractRawJson "0xc0ffee" (some "0xacc") (some "0xdead")
          sampleFormState.valueWei sampleFormState.gasLimit).method =
        "eth_sendTransaction" ∧
      (sampleFormState.valueWei = none →
        (generateInteractRawJson "0xc0ffee" (some "0xacc") (some "0xdead")
            sampleFormState.valueWei sampleFormState.gasLimit).params0.value =
          some "0x0") ∧
      (sampleFormState.gasLimit = none →
        (generateInteractRawJson "0xc0ffee" (some "0xacc") (some "0xdead")
            sampleFormState.valueWei sampleFormState.gasLimit).params0.gas =
          none)) :=
  ⟨rfl, rfl,
    C6_toRaw_encoding sampleEnc sampleCtx sampleFormState 7 1 21000 "0xc0ffee"
      (some "0xacc") (some "0xdead") rfl rfl⟩

end Chasm
